import Mathlib

/-!
Verification of the Sina finance news plugin (`sina_news_plugin.py`).

The embedding models the core POST `/news` handler `get_sina_news`:
symbol validation (lines 179-186), the fetch step (modelled as an oracle
function, lines 196-207), anchor extraction from `div.datelist a`
(lines 210-237), and result assembly (lines 250-260).

Strings are Lean `String`s; Python `str.strip` / `str.lower` and the two
regexes are modelled over ASCII characters (the reachable inputs of the
claims are ASCII, and both the code and the spec use the same regexes, so
the comparison is unaffected).
-/

namespace SinaNews

/-- Whitespace characters stripped by Python `str.strip()` (ASCII model):
space, tab, newline, carriage return, vertical tab, form feed. -/
def isPyWhitespace (c : Char) : Bool :=
  c == ' ' || c == '\t' || c == '\n' || c == '\r' ||
  c == Char.ofNat 11 || c == Char.ofNat 12

/-- Python `str.strip()`: remove leading and trailing whitespace. -/
def pystrip (s : String) : String :=
  String.mk (((s.data.dropWhile isPyWhitespace).reverse.dropWhile isPyWhitespace).reverse)

/-- Python `str.lower()` (ASCII model). -/
def pylower (s : String) : String :=
  String.mk (s.data.map Char.toLower)

/-- The code's check `re.match(r'^(sh|sz)\d{6}$', symbol)` (line 182):
the whole string is `sh` or `sz` followed by exactly six digits.  The code
only applies it to an already-stripped string, on which `re.match` with a
trailing `$` is exactly full-string matching. -/
def matchesSymbolPattern (s : String) : Bool :=
  match s.data with
  | c1 :: c2 :: rest =>
    (c1 == 's') && (c2 == 'h' || c2 == 'z') &&
    (rest.length == 6) && rest.all Char.isDigit
  | _ => false

/-- Lines 179-186: `symbol = request.symbol.strip().lower()`, then the
regex check; failure raises HTTP 400. -/
def validateSymbol (raw : String) : Except Unit String :=
  let symbol := pylower (pystrip raw)
  if matchesSymbolPattern symbol then Except.ok symbol else Except.error ()

/-- One anchor element selected by `div.datelist a`:
its visible text (`link.get_text()`), its `href` attribute
(`none` when the attribute is absent), and the full text of its nearest
enclosing parent element (`none` when `link.find_parent()` is `None`). -/
structure Anchor where
  text : String
  href : Option String
  parentText : Option String
deriving DecidableEq

/-- One entry of the returned `articles` list (lines 233-237). -/
structure Article where
  title : String
  url : String
  date : Option String
deriving DecidableEq

/-- `cs` starts with the pattern `p` (Python `str.startswith`). -/
def listStartsWith : List Char → List Char → Bool
  | _, [] => true
  | [], _ :: _ => false
  | c :: cs, p :: ps => (c == p) && listStartsWith cs ps

/-- Python `s.startswith(p)`. -/
def strStartsWith (s p : String) : Bool :=
  listStartsWith s.data p.data

/-- The fixed origin prepended to root-relative hrefs (line 220). -/
def baseOrigin : String := "https://vip.stock.finance.sina.com.cn"

/-- The shape `\d{4}-\d{2}-\d{2}`, on a candidate 10-character window. -/
def dateShape (l : List Char) : Bool :=
  match l with
  | [a, b, c, d, e, f, g, h, i, j] =>
    a.isDigit && b.isDigit && c.isDigit && d.isDigit && (e == '-') &&
    f.isDigit && g.isDigit && (h == '-') && i.isDigit && j.isDigit
  | _ => false

/-- Left-to-right scan: the leftmost 10-character window matching
`\d{4}-\d{2}-\d{2}`, as `re.search` finds it (line 229). -/
def firstDateAux : List Char → Option (List Char)
  | [] => none
  | c :: rest =>
    if dateShape ((c :: rest).take 10) then some ((c :: rest).take 10)
    else firstDateAux rest

/-- `re.search(r'(\d{4}-\d{2}-\d{2})', s)` and `.group(1)` on success. -/
def firstDateMatch (s : String) : Option String :=
  (firstDateAux s.data).map String.mk

/-- Lines 224-231: `date = None`; if the anchor has a parent, search the
parent's full text for the first date substring. -/
def extractDate (a : Anchor) : Option String :=
  match a.parentText with
  | none => none
  | some t => firstDateMatch t

/-- Body of the `for link in links[:limit]` loop (lines 215-237) for one
anchor: title is the trimmed text; href defaults to `""`
(`link.get('href', '')`); a root-relative href is prefixed with the
origin, an href not starting with `http` is skipped (`continue`),
any other href is used as-is; the date comes from the parent text. -/
def processAnchor (a : Anchor) : Option Article :=
  let href := a.href.getD ""
  if strStartsWith href "/" then
    some { title := pystrip a.text, url := baseOrigin ++ href, date := extractDate a }
  else if strStartsWith href "http" then
    some { title := pystrip a.text, url := href, date := extractDate a }
  else
    none

/-- Lines 213-237: the loop runs over `links[:limit]` (slice first!) and
appends one article per non-skipped anchor, in document order. -/
def extractNews (links : List Anchor) (limit : Nat) : List Article :=
  (links.take limit).filterMap processAnchor

/-- An anchor the loop keeps: its (defaulted) href starts with `/` or
with `http`. -/
def qualifies (a : Anchor) : Bool :=
  let href := a.href.getD ""
  strStartsWith href "/" || strStartsWith href "http"

/-- The URL the loop builds for a kept anchor. -/
def resolveUrl (href : String) : String :=
  if strStartsWith href "/" then baseOrigin ++ href else href

/-- The article the loop builds for a kept anchor. -/
def articleOf (a : Anchor) : Article :=
  { title := pystrip a.text, url := resolveUrl (a.href.getD ""), date := extractDate a }

/-- Outcome of one call to the handler: a success body
`{symbol, news_count, articles}` or an `HTTPException` status code. -/
inductive ApiOutcome where
  | ok (symbol : String) (newsCount : Nat) (articles : List Article)
  | error (status : Nat)
deriving DecidableEq

/-- The POST `/news` handler `get_sina_news` (lines 172-260).  The network
fetch + GBK decode + HTML parse (lines 196-210) is modelled as an oracle
`fetch` from the validated symbol to either an exception message (both
`except` blocks raise HTTP 500, lines 239-248) or the list of anchors
selected by `div.datelist a`.  The second component of the result records
whether the network was accessed.  `limit` is the request's limit after
pydantic validation and the `request.limit or 5` default (line 213). -/
def get_sina_news (rawSymbol : String) (limit : Nat)
    (fetch : String → Except String (List Anchor)) : ApiOutcome × Bool :=
  match validateSymbol rawSymbol with
  | Except.error _ => (ApiOutcome.error 400, false)
  | Except.ok symbol =>
    match fetch symbol with
    | Except.error _ => (ApiOutcome.error 500, true)
    | Except.ok anchors =>
      if (extractNews anchors limit).isEmpty then (ApiOutcome.error 404, true)
      else (ApiOutcome.ok symbol (extractNews anchors limit).length
        (extractNews anchors limit), true)

/-- Spec-side rendering of the regex `^(sh|sz)\d{6}$`, written from the
spec's words for comparison with the code's check: the string is `sh` or
`sz` followed by exactly six digits, nothing more. -/
def specSymbolMatch (s : String) : Prop :=
  ∃ p ds : List Char, (p = ['s', 'h'] ∨ p = ['s', 'z']) ∧
    ds.length = 6 ∧ (∀ c ∈ ds, c.isDigit = true) ∧ s.data = p ++ ds

/-- Concrete fixture: an anchor with a non-qualifying href. -/
def jsAnchor : Anchor :=
  { text := "notice", href := some "javascript:void(0)", parentText := none }

/-- Concrete fixture: a root-relative anchor with a dated parent. -/
def goodAnchor : Anchor :=
  { text := " NewsA ", href := some "/finance/x/123.shtml",
    parentText := some "2024-01-01 NewsA" }

/-- Concrete fixture: an absolute-http anchor. -/
def absAnchor : Anchor :=
  { text := "C", href := some "http://finance.sina.com.cn/b.shtml", parentText := none }

/-- Concrete fixture: a protocol-relative anchor. -/
def protoRelAnchor : Anchor :=
  { text := "B", href := some "//news.sina.com.cn/a.shtml", parentText := none }

/-- Concrete fixture: a qualifying anchor whose text trims to empty. -/
def emptyTitleAnchor : Anchor :=
  { text := "  ", href := some "/x.shtml", parentText := none }

/-- Concrete fixture: an anchor with no href attribute. -/
def noHrefAnchor : Anchor :=
  { text := "x", href := none, parentText := none }

/-- The article extracted from `goodAnchor`. -/
def goodArticle : Article :=
  { title := "NewsA",
    url := "https://vip.stock.finance.sina.com.cn/finance/x/123.shtml",
    date := some "2024-01-01" }

theorem data_empty : "".data = [] := rfl

theorem data_slash : "/".data = ['/'] := rfl

theorem data_slashslash : "//".data = ['/', '/'] := rfl

theorem data_http : "http".data = ['h', 't', 't', 'p'] := rfl

theorem processAnchor_eq (a : Anchor) :
    processAnchor a = if qualifies a then some (articleOf a) else none := by
  by_cases h1 : strStartsWith (a.href.getD "") "/" = true
  · simp [processAnchor, qualifies, articleOf, resolveUrl, h1]
  · have h1' : strStartsWith (a.href.getD "") "/" = false := by
      simpa using h1
    by_cases h2 : strStartsWith (a.href.getD "") "http" = true
    · simp [processAnchor, qualifies, articleOf, resolveUrl, h1', h2]
    · have h2' : strStartsWith (a.href.getD "") "http" = false := by
        simpa using h2
      simp [processAnchor, qualifies, articleOf, resolveUrl, h1', h2']

theorem filterMap_processAnchor_eq (l : List Anchor) :
    l.filterMap processAnchor = (l.filter qualifies).map articleOf := by
  induction l with
  | nil => rfl
  | cons a l ih =>
    rw [List.filterMap_cons, List.filter_cons, processAnchor_eq]
    by_cases h : qualifies a = true
    · simp [h, ih]
    · have h' : qualifies a = false := by simpa using h
      simp [h', ih]

theorem extractNews_eq (links : List Anchor) (limit : Nat) :
    extractNews links limit = ((links.take limit).filter qualifies).map articleOf :=
  filterMap_processAnchor_eq _

theorem extractNews_length (links : List Anchor) (limit : Nat) :
    (extractNews links limit).length = List.countP qualifies (links.take limit) := by
  rw [extractNews_eq, List.length_map, ← List.countP_eq_length_filter]

theorem extractNews_length_le (links : List Anchor) (limit : Nat) :
    (extractNews links limit).length ≤ limit :=
  le_trans (List.length_filterMap_le _ _) (List.length_take_le _ _)

theorem processAnchor_date (a : Anchor) (art : Article)
    (h : processAnchor a = some art) : art.date = extractDate a := by
  rw [processAnchor_eq] at h
  by_cases hq : qualifies a = true
  · rw [hq] at h
    simp only [if_true, Option.some.injEq] at h
    rw [← h]
    rfl
  · have hq' : qualifies a = false := by simpa using hq
    rw [hq'] at h
    simp at h

theorem firstDateAux_isNone (cs : List Char)
    (h : ∀ i, dateShape ((cs.drop i).take 10) = false) :
    firstDateAux cs = none := by
  induction cs with
  | nil => rfl
  | cons c rest ih =>
    have h0 := h 0
    simp only [List.drop_zero] at h0
    simp only [firstDateAux, h0]
    simp only [Bool.false_eq_true, if_false]
    exact ih fun i => by
      have hi := h (i + 1)
      rwa [List.drop_succ_cons] at hi

theorem firstDateAux_leftmost (cs : List Char) (i : Nat)
    (hi : dateShape ((cs.drop i).take 10) = true)
    (hmin : ∀ j, j < i → dateShape ((cs.drop j).take 10) = false) :
    firstDateAux cs = some ((cs.drop i).take 10) := by
  induction cs generalizing i with
  | nil => simp [dateShape] at hi
  | cons c rest ih =>
    cases i with
    | zero =>
      simp only [List.drop_zero] at hi ⊢
      unfold firstDateAux
      rw [if_pos hi]
    | succ j =>
      have h0 := hmin 0 (Nat.succ_pos j)
      simp only [List.drop_zero] at h0
      rw [List.drop_succ_cons] at hi ⊢
      simp only [firstDateAux, h0, Bool.false_eq_true, if_false]
      exact ih j hi fun k hk => by
        have hkk := hmin (k + 1) (Nat.succ_lt_succ hk)
        rwa [List.drop_succ_cons] at hkk

theorem firstDateAux_shape (cs : List Char) (m : List Char)
    (h : firstDateAux cs = some m) : dateShape m = true := by
  induction cs with
  | nil => simp [firstDateAux] at h
  | cons c rest ih =>
    by_cases hc : dateShape ((c :: rest).take 10) = true
    · simp only [firstDateAux, hc, if_true, Option.some.injEq] at h
      rw [← h]
      exact hc
    · have hc' : dateShape ((c :: rest).take 10) = false := by simpa using hc
      simp only [firstDateAux, hc', Bool.false_eq_true, if_false] at h
      exact ih h

theorem matches_iff_spec (s : String) :
    matchesSymbolPattern s = true ↔ specSymbolMatch s := by
  constructor
  · intro h
    unfold matchesSymbolPattern at h
    match hs : s.data with
    | [] => rw [hs] at h; simp at h
    | [c] => rw [hs] at h; simp at h
    | c1 :: c2 :: rest =>
      rw [hs] at h
      simp only [Bool.and_eq_true, beq_iff_eq, Bool.or_eq_true,
        List.all_eq_true, Nat.beq_eq] at h
      obtain ⟨⟨⟨hc1, hc2⟩, hlen⟩, hdig⟩ := h
      refine ⟨[c1, c2], rest, ?_, hlen, ?_, hs⟩
      · rcases hc2 with hh | hz
        · exact Or.inl (by rw [hc1, hh])
        · exact Or.inr (by rw [hc1, hz])
      · intro c hc
        exact hdig c hc
  · rintro ⟨p, ds, hp, hlen, hdig, hs⟩
    unfold matchesSymbolPattern
    have hall : ds.all Char.isDigit = true :=
      List.all_eq_true.mpr fun c hc => hdig c hc
    rcases hp with hh | hz
    · subst hh
      rw [hs]
      simp [hall, hlen]
    · subst hz
      rw [hs]
      simp [hall, hlen]

/-- Claim C1 as stated is false on the code: the loop slices
`links[:limit]` before filtering, so a non-qualifying anchor inside the
first `limit` anchors does consume a limit slot.  Concretely, a document
with one non-qualifying anchor followed by one qualifying anchor and
`limit = 1` yields 0 articles, not `min(N, L) = min(1, 1) = 1`. -/
theorem C1_counterexample :
    ¬ ((extractNews [jsAnchor, goodAnchor] 1).length =
        min (List.countP qualifies [jsAnchor, goodAnchor]) 1) := by
  decide

/-- Claim C1 (amended): extraction truncates to the first `limit` anchors
BEFORE filtering; the result is exactly the qualifying anchors among the
first `limit`, in document order, so a non-qualifying anchor within the
first `limit` anchors does consume a limit slot.  When every anchor in
the document qualifies, the result has `min(N, L)` articles. -/
theorem C1_amended_limit_slice (links : List Anchor) (L : Nat) :
    extractNews links L = ((links.take L).filter qualifies).map articleOf ∧
    (extractNews links L).length = List.countP qualifies (links.take L) ∧
    ((∀ a ∈ links, qualifies a = true) →
        (extractNews links L).length = min links.length L) := by
  refine ⟨extractNews_eq links L, extractNews_length links L, ?_⟩
  intro hall
  rw [extractNews_length,
    List.countP_eq_length.mpr fun a ha => hall a (List.take_subset L links ha),
    List.length_take]
  exact Nat.min_comm L links.length

/-- Witness for the amended claim C1 at a concrete document in which all
anchors qualify. -/
theorem C1_amended_limit_slice_witness :
    (extractNews [goodAnchor, absAnchor] 1).length =
      min (List.length [goodAnchor, absAnchor]) 1 :=
  (C1_amended_limit_slice [goodAnchor, absAnchor] 1).2.2 (by decide)

/-- Claim C2 as stated is false on the code: a protocol-relative href
(beginning with `//`) also begins with `/`, so the anchor is NOT skipped:
it is kept, with the origin prepended. -/
theorem C2_counterexample :
    strStartsWith (protoRelAnchor.href.getD "") "//" = true ∧
    extractNews [protoRelAnchor] 5 ≠ [] ∧
    extractNews [protoRelAnchor] 5 =
      [{ title := "B",
         url := "https://vip.stock.finance.sina.com.cn//news.sina.com.cn/a.shtml",
         date := none }] := by
  refine ⟨by decide, by decide, by decide⟩

/-- Claim C2 (amended): an anchor whose href begins with `//` is treated
like any href beginning with `/`: it is kept in the results with the
fixed origin prepended to the href (yielding a URL with a doubled
slash), not skipped. -/
theorem C2_amended_proto_relative (a : Anchor)
    (h : strStartsWith (a.href.getD "") "//" = true) :
    processAnchor a = some
      { title := pystrip a.text,
        url := baseOrigin ++ a.href.getD "", date := extractDate a } := by
  have hs : strStartsWith (a.href.getD "") "/" = true := by
    unfold strStartsWith at h ⊢
    rw [data_slashslash] at h
    rw [data_slash]
    cases hd : (a.href.getD "").data with
    | nil => rw [hd] at h; simp [listStartsWith] at h
    | cons c cs =>
      rw [hd] at h
      simp only [listStartsWith, Bool.and_eq_true, beq_iff_eq] at h
      simp [listStartsWith, h.1]
  simp [processAnchor, hs]

/-- Witness for the amended claim C2 at the concrete protocol-relative
anchor. -/
theorem C2_amended_proto_relative_witness :
    processAnchor protoRelAnchor = some
      { title := "B",
        url := "https://vip.stock.finance.sina.com.cn//news.sina.com.cn/a.shtml",
        date := none } :=
  Eq.trans (C2_amended_proto_relative protoRelAnchor (by decide)) (by decide)

/-- Claim C3: when fetch and parse succeed structurally but extraction
yields no articles, the handler fails with HTTP 404; and the handler
never returns a success with an empty article list or a zero count. -/
theorem C3_empty_is_notfound :
    (∀ (raw : String) (limit : Nat) (fetch : String → Except String (List Anchor))
        (anchors : List Anchor),
        matchesSymbolPattern (pylower (pystrip raw)) = true →
        fetch (pylower (pystrip raw)) = Except.ok anchors →
        extractNews anchors limit = [] →
        get_sina_news raw limit fetch = (ApiOutcome.error 404, true)) ∧
    (∀ (raw : String) (limit : Nat) (fetch : String → Except String (List Anchor))
        (s : String) (c : Nat) (arts : List Article) (netw : Bool),
        get_sina_news raw limit fetch = (ApiOutcome.ok s c arts, netw) →
        arts ≠ [] ∧ c ≠ 0) := by
  constructor
  · intro raw limit fetch anchors hsym hfetch hempty
    simp [get_sina_news, validateSymbol, hsym, hfetch, hempty]
  · intro raw limit fetch s c arts netw h
    unfold get_sina_news at h
    split at h
    · exact absurd h (by simp)
    · split at h
      · exact absurd h (by simp)
      · split at h
        · exact absurd h (by simp)
        · rename_i hne
          simp only [Prod.mk.injEq, ApiOutcome.ok.injEq] at h
          obtain ⟨⟨-, hc, harts⟩, -⟩ := h
          rw [harts] at hc hne
          have hane : arts ≠ [] := fun hnil => hne (by rw [hnil]; rfl)
          subst hc
          exact ⟨hane, fun h0 => hane (List.length_eq_zero.mp h0)⟩

/-- Witness for claim C3: a valid symbol whose fetched page yields no
anchors produces HTTP 404. -/
theorem C3_empty_is_notfound_witness :
    get_sina_news "sh600000" 5 (fun _ => Except.ok []) = (ApiOutcome.error 404, true) :=
  C3_empty_is_notfound.1 "sh600000" 5 (fun _ => Except.ok []) [] (by decide) rfl rfl

/-- Claim C4: symbol validation succeeds exactly on strings whose
whitespace-trimmed, lowercased form fully matches `(sh|sz)` followed by
six digits, returning that normalized form; every other string is
rejected (HTTP 400). -/
theorem C4_symbol_validation (raw : String) :
    (∀ s, validateSymbol raw = Except.ok s ↔
        specSymbolMatch (pylower (pystrip raw)) ∧ s = pylower (pystrip raw)) ∧
    (validateSymbol raw = Except.error () ↔
        ¬ specSymbolMatch (pylower (pystrip raw))) := by
  by_cases hm : matchesSymbolPattern (pylower (pystrip raw)) = true
  · have hspec := (matches_iff_spec _).mp hm
    constructor
    · intro s
      simp only [validateSymbol, hm, if_true, Except.ok.injEq]
      constructor
      · intro h
        exact ⟨hspec, h.symm⟩
      · intro h
        exact h.2.symm
    · simp [validateSymbol, hm, hspec]
  · have hm' : matchesSymbolPattern (pylower (pystrip raw)) = false := by
      simpa using hm
    have hns : ¬ specSymbolMatch (pylower (pystrip raw)) := fun hs => by
      rw [(matches_iff_spec _).mpr hs] at hm'
      cases hm'
    constructor
    · intro s
      simp [validateSymbol, hm', hns]
    · simp [validateSymbol, hm', hns]

/-- Witness for claim C4: `" SH600000 "` validates to `"sh600000"`. -/
theorem C4_symbol_validation_witness :
    specSymbolMatch (pylower (pystrip " SH600000 ")) ∧
      "sh600000" = pylower (pystrip " SH600000 ") :=
  ((C4_symbol_validation " SH600000 ").1 "sh600000").mp rfl

/-- Claim C5: when the symbol fails validation the handler returns
HTTP 400 without touching the network, whatever the network would have
answered (the result is the same for every fetch oracle and the
network-access flag is `false`). -/
theorem C5_no_network_on_invalid (raw : String) (limit : Nat)
    (fetch : String → Except String (List Anchor))
    (h : matchesSymbolPattern (pylower (pystrip raw)) = false) :
    get_sina_news raw limit fetch = (ApiOutcome.error 400, false) := by
  simp [get_sina_news, validateSymbol, h]

/-- Witness for claim C5 at an invalid symbol. -/
theorem C5_no_network_on_invalid_witness :
    get_sina_news "bogus" 5 (fun _ => Except.ok [goodAnchor]) =
      (ApiOutcome.error 400, false) :=
  C5_no_network_on_invalid "bogus" 5 (fun _ => Except.ok [goodAnchor]) (by decide)

/-- Claim C6: every successful result satisfies
`news_count = articles.length` and `0 < articles.length ≤ limit`. -/
theorem C6_count_invariant (raw : String) (limit : Nat)
    (fetch : String → Except String (List Anchor))
    (s : String) (c : Nat) (arts : List Article) (netw : Bool)
    (h : get_sina_news raw limit fetch = (ApiOutcome.ok s c arts, netw)) :
    c = arts.length ∧ 0 < arts.length ∧ arts.length ≤ limit := by
  unfold get_sina_news at h
  split at h
  · exact absurd h (by simp)
  · split at h
    · exact absurd h (by simp)
    · split at h
      · exact absurd h (by simp)
      · rename_i anchors hfeq hne
        simp only [Prod.mk.injEq, ApiOutcome.ok.injEq] at h
        obtain ⟨⟨-, hc, harts⟩, -⟩ := h
        have hlenle := extractNews_length_le anchors limit
        rw [harts] at hc hne hlenle
        have hane : arts ≠ [] := fun hnil => hne (by rw [hnil]; rfl)
        exact ⟨hc.symm, List.length_pos.mpr hane, hlenle⟩

/-- Witness for claim C6 at a concrete successful call. -/
theorem C6_count_invariant_witness :
    1 = List.length [goodArticle] ∧ 0 < List.length [goodArticle] ∧
      List.length [goodArticle] ≤ 5 :=
  C6_count_invariant "sh600000" 5 (fun _ => Except.ok [goodAnchor])
    "sh600000" 1 [goodArticle] true (by decide)

/-- Claim C7: a kept anchor whose href starts with `/` gets the fixed
origin prepended to form its URL; one whose href starts with `http` is
used unchanged. -/
theorem C7_url_resolution (a : Anchor) :
    (strStartsWith (a.href.getD "") "/" = true →
        processAnchor a = some
          { title := pystrip a.text,
            url := baseOrigin ++ a.href.getD "", date := extractDate a }) ∧
    (strStartsWith (a.href.getD "") "http" = true →
        processAnchor a = some
          { title := pystrip a.text,
            url := a.href.getD "", date := extractDate a }) := by
  constructor
  · intro h
    simp [processAnchor, h]
  · intro h
    have hslash : strStartsWith (a.href.getD "") "/" = false := by
      unfold strStartsWith at h ⊢
      rw [data_http] at h
      rw [data_slash]
      cases hd : (a.href.getD "").data with
      | nil => rw [hd] at h; simp [listStartsWith] at h
      | cons c cs =>
        rw [hd] at h
        simp only [listStartsWith, Bool.and_eq_true, beq_iff_eq] at h
        simp [listStartsWith, h.1]
    simp [processAnchor, hslash, h]

/-- Witness for claim C7: the spec's example href
`/finance/x/123.shtml` resolves to the origin-prefixed URL, and an
absolute href is kept as-is. -/
theorem C7_url_resolution_witness :
    processAnchor goodAnchor = some goodArticle ∧
    processAnchor absAnchor = some
      { title := "C",
        url := "http://finance.sina.com.cn/b.shtml", date := none } := by
  constructor
  · exact Eq.trans ((C7_url_resolution goodAnchor).1 (by decide)) (by decide)
  · exact Eq.trans ((C7_url_resolution absAnchor).2 (by decide)) (by decide)

/-- Claim C8: a kept anchor's date is the leftmost substring of its
parent's full text matching `\d{4}-\d{2}-\d{2}`, verbatim; with no
parent, or no matching substring, the date is `none`; it is never the
empty string. -/
theorem C8_date_extraction (a : Anchor) (art : Article)
    (h : processAnchor a = some art) :
    (a.parentText = none → art.date = none) ∧
    (∀ t, a.parentText = some t →
        ((∀ i, dateShape ((t.data.drop i).take 10) = false) → art.date = none) ∧
        (∀ i, dateShape ((t.data.drop i).take 10) = true →
            (∀ j, j < i → dateShape ((t.data.drop j).take 10) = false) →
            art.date = some (String.mk ((t.data.drop i).take 10)))) ∧
    art.date ≠ some "" := by
  have hd : art.date = extractDate a := processAnchor_date a art h
  refine ⟨?_, ?_, ?_⟩
  · intro hp
    rw [hd]
    simp [extractDate, hp]
  · intro t hp
    constructor
    · intro hnone
      rw [hd]
      simp [extractDate, hp, firstDateMatch, firstDateAux_isNone t.data hnone]
    · intro i hi hmin
      rw [hd]
      simp [extractDate, hp, firstDateMatch, firstDateAux_leftmost t.data i hi hmin]
  · rw [hd]
    intro hcon
    cases hp : a.parentText with
    | none =>
      rw [show extractDate a = none from by simp [extractDate, hp]] at hcon
      cases hcon
    | some t =>
      rw [show extractDate a = (firstDateAux t.data).map String.mk from by
        simp [extractDate, firstDateMatch, hp]] at hcon
      cases hf : firstDateAux t.data with
      | none => rw [hf] at hcon; cases hcon
      | some m =>
        rw [hf] at hcon
        simp only [Option.map_some', Option.some.injEq] at hcon
        have hm0 : m = [] := congrArg String.data hcon
        have hshape := firstDateAux_shape t.data m hf
        rw [hm0] at hshape
        simp [dateShape] at hshape

/-- Witness for claim C8 at the concrete dated anchor: the extracted
article's date is not the empty string. -/
theorem C8_date_extraction_witness :
    goodArticle.date ≠ some "" :=
  (C8_date_extraction goodAnchor goodArticle (by decide)).2.2

/-- Claim C9: a qualifying anchor whose visible text trims to the empty
string is still kept: its article appears in the extracted list with an
empty title, never silently dropped. -/
theorem C9_empty_title_kept (a : Anchor) (links : List Anchor) (limit : Nat)
    (hq : qualifies a = true) (ht : pystrip a.text = "")
    (hmem : a ∈ links.take limit) :
    ∃ art ∈ extractNews links limit, art.title = "" ∧
      processAnchor a = some art := by
  refine ⟨articleOf a, ?_, ?_, ?_⟩
  · rw [extractNews_eq]
    exact List.mem_map_of_mem articleOf (List.mem_filter.mpr ⟨hmem, hq⟩)
  · simp [articleOf, ht]
  · simp [processAnchor_eq, hq]

/-- Witness for claim C9 at a concrete whitespace-titled anchor. -/
theorem C9_empty_title_kept_witness :
    ∃ art ∈ extractNews [emptyTitleAnchor] 5, art.title = "" ∧
      processAnchor emptyTitleAnchor = some art :=
  C9_empty_title_kept emptyTitleAnchor [emptyTitleAnchor] 5
    (by decide) (by decide) (by decide)

/-- Claim C10: an anchor with no href attribute defaults to the empty
href, fails both prefix tests, and is skipped; consequently every
extracted article comes from an anchor that does have an href. -/
theorem C10_missing_href_skipped (links : List Anchor) (limit : Nat) :
    (∀ a : Anchor, a.href = none → processAnchor a = none) ∧
    (∀ art ∈ extractNews links limit,
        ∃ b ∈ links.take limit, b.href ≠ none ∧ processAnchor b = some art) := by
  have hnone : ∀ a : Anchor, a.href = none → processAnchor a = none := by
    intro a ha
    simp [processAnchor, ha, strStartsWith, listStartsWith, data_empty,
      data_slash, data_http]
  refine ⟨hnone, ?_⟩
  intro art hart
  unfold extractNews at hart
  obtain ⟨b, hb, hpb⟩ := List.mem_filterMap.mp hart
  refine ⟨b, hb, ?_, hpb⟩
  intro hb'
  rw [hnone b hb'] at hpb
  cases hpb

/-- Witness for claim C10 at a concrete href-less anchor. -/
theorem C10_missing_href_skipped_witness :
    processAnchor noHrefAnchor = none :=
  (C10_missing_href_skipped [] 0).1 noHrefAnchor rfl

end SinaNews
